import Mathlib

/-!
Verification of the chemtrails capture-dispatch-persist pipeline.

This file shallowly embeds the central parts of the repository:
the span tracker (`chemtrails/trails/traces.py`), the archive codec
(`chemtrails/trails/archive.py`), the trace lifecycle
(`Trace.__enter__` / `Trace.__exit__`) and the hub admission path
(`chemtrails/hub/hub.py`), and proves or refutes the specified
properties about them.

Python exceptions are modelled by an explicit error type; mutation is
modelled by explicit state passing; python object identity (`is`) is
modelled by giving mutable span objects numeric identities into a heap.
-/

/-- Errors that the modelled code can raise.  The `archive...`
constructors model the classes declared in `chemtrails/exceptions.py`
(all of which derive `ChemtrailsError`); the remaining constructors
model the Python builtins that the translated code raises
(`RuntimeError`, `ValueError`, `LookupError`) and `queue.Full`.
`chemtrails/exceptions.py` declares no stack-discipline error class. -/
inductive PyError where
  | runtimeError (msg : String)
  | valueError (msg : String)
  | lookupError
  | queueFullError
  | archiveBadFileError (filename : String)
  | archiveUnsupportedVersionError (version : Int)
  | archiveClassMismatchError (name : String)
  | archiveWrongObjectError (expected got : String)
deriving DecidableEq, Repr

namespace PyError

/-- True exactly for the error classes declared in
`chemtrails/exceptions.py`, i.e. those deriving `ChemtrailsError`. -/
def isChemtrailsError : PyError → Bool
  | archiveBadFileError _ => true
  | archiveUnsupportedVersionError _ => true
  | archiveClassMismatchError _ => true
  | archiveWrongObjectError _ _ => true
  | _ => false

def isRuntimeError : PyError → Bool
  | runtimeError _ => true
  | _ => false

def isLookupError : PyError → Bool
  | lookupError => true
  | _ => false

end PyError

/-! ## Span tracker (`chemtrails/trails/traces.py`, class `Span`)

A `Span` object has an oid, a trace id, an ordered list of children,
and monotonic-clock `start` / `finish` stamps (0 = unset).  Children
are object references; we model references as numeric span ids into a
heap `spans : Nat → Span`.  The per-context stack
(`Span.STACK` / `get_stack()`) holds references too; `none` models a
context whose `ContextVar` was never set (reading it raises
`LookupError`). -/

structure Span where
  oid : String := ""
  trace_id : String := ""
  children : List Nat := []
  start : Nat := 0
  finish : Nat := 0
deriving DecidableEq, Repr

/-- A fresh `Span()` object, as produced by the dataclass defaults. -/
def Span.empty : Span := {}

/-- The state of one logical execution context: the heap of span
objects and the context-local stack of span references
(top of stack = last element, as for a python list). -/
structure SpanState where
  spans : Nat → Span
  stack : Option (List Nat)

/-- The initial state: every span object fresh, the context stack
never created. -/
def initState : SpanState := ⟨fun _ => Span.empty, none⟩

/-- Heap update at one span id. -/
def setSpan (f : Nat → Span) (i : Nat) (sp : Span) : Nat → Span :=
  fun j => if j = i then sp else f j

/-- `stack[-1].children.append(self)` when the stack is non-empty:
append span `i` to the children of the stack's top (= last) element. -/
def appendChildToTop (spans : Nat → Span) (stk : List Nat) (i : Nat) :
    Nat → Span :=
  match stk.getLast? with
  | some j => setSpan spans j
      { spans j with children := (spans j).children ++ [i] }
  | none => spans

namespace Span

/-- `Span.push`: if the context stack is unset, initialise it to `[]`
(the `LookupError` handler); if it is non-empty, append `self` to the
children of its top element; then push `self` and record
`start = time.monotonic_ns()` (the clock reading is the argument `t`). -/
def push (i : Nat) (t : Nat) (s : SpanState) : SpanState :=
  let stk := s.stack.getD []
  let spans1 := appendChildToTop s.spans stk i
  { spans := setSpan spans1 i { spans1 i with start := t },
    stack := some (stk ++ [i]) }

/-- `Span.pop`: record `finish = time.monotonic_ns()` first, then read
the context stack (raising `LookupError` if it was never set), raise
`RuntimeError` if it is empty, otherwise remove its top element and
raise `RuntimeError` if that element is not `self`.  The returned
state reflects every mutation performed before the error was raised. -/
def pop (i : Nat) (t : Nat) (s : SpanState) : SpanState × Option PyError :=
  let spans1 := setSpan s.spans i { s.spans i with finish := t }
  match s.stack with
  | none => ({ spans := spans1, stack := none }, some .lookupError)
  | some stk =>
    match stk.getLast? with
    | none =>
      ({ spans := spans1, stack := some stk },
        some (.runtimeError "Stack is unexpectecly empty"))
    | some obj =>
      let s2 : SpanState := { spans := spans1, stack := some stk.dropLast }
      if obj = i then (s2, none)
      else
        (s2, some (.runtimeError
          ("Expect " ++ (spans1 i).oid ++ " to be on a top of stack, got "
            ++ (spans1 obj).oid)))

/-- `elapsed_ns`: 0 if the span never started, otherwise
`(finish or now) - start`. -/
def elapsed_ns (sp : Span) (now : Nat) : Int :=
  if sp.start = 0 then 0
  else (if sp.finish = 0 then (now : Int) else (sp.finish : Int)) - (sp.start : Int)

def is_in_progress (sp : Span) : Bool := sp.finish == 0

end Span

/-- C4 counterexample helper state: a context whose stack exists but is
empty. -/
def emptyStackState : SpanState := ⟨fun _ => Span.empty, some []⟩

/-- **C4 (counterexample).**  The claim says a `pop()` on an empty
stack fails with `StackDisciplineError`, a dedicated stack-discipline
error type.  On the code, `pop()` on an empty stack raises the builtin
`RuntimeError`; no error class of `chemtrails/exceptions.py`
(`ChemtrailsError` hierarchy) is involved, and none named
`StackDisciplineError` exists. -/
theorem pop_empty_raises_builtin_runtimeError :
    (Span.pop 0 7 emptyStackState).2
        = some (.runtimeError "Stack is unexpectecly empty")
      ∧ PyError.isChemtrailsError
          (.runtimeError "Stack is unexpectecly empty") = false := by
  constructor
  · rfl
  · rfl

/-- **C4 (amended).**  `pop()` on an unset or empty context stack, or
on a stack whose top element is not the span itself, always fails —
but with a Python builtin (`LookupError` when the context stack was
never created, `RuntimeError` otherwise), not with a dedicated
stack-discipline error from the library hierarchy; it never succeeds
silently. -/
theorem pop_misuse_always_fails (s : SpanState) (i t : Nat)
    (h : s.stack = none ∨ s.stack = some []
      ∨ ∃ stk j, s.stack = some (stk ++ [j]) ∧ j ≠ i) :
    ∃ e, (Span.pop i t s).2 = some e
      ∧ (e.isRuntimeError || e.isLookupError) = true
      ∧ e.isChemtrailsError = false := by
  rcases h with h | h | ⟨stk, j, h, hne⟩
  · exact ⟨.lookupError, by simp [Span.pop, h], rfl, rfl⟩
  · refine ⟨.runtimeError "Stack is unexpectecly empty", ?_, rfl, rfl⟩
    simp [Span.pop, h]
  · refine ⟨.runtimeError
      ("Expect " ++ ((setSpan s.spans i { s.spans i with finish := t }) i).oid
        ++ " to be on a top of stack, got "
        ++ ((setSpan s.spans i { s.spans i with finish := t }) j).oid), ?_, rfl, rfl⟩
    simp only [Span.pop, h]
    rw [List.getLast?_concat]
    simp [hne]

/-- Witness for C4 (amended): a concrete misuse input. -/
theorem pop_misuse_always_fails_witness :
    (emptyStackState.stack = none ∨ emptyStackState.stack = some []
      ∨ ∃ stk j, emptyStackState.stack = some (stk ++ [j]) ∧ j ≠ 0)
    ∧ ∃ e, (Span.pop 0 7 emptyStackState).2 = some e
      ∧ (e.isRuntimeError || e.isLookupError) = true
      ∧ e.isChemtrailsError = false :=
  ⟨Or.inr (Or.inl rfl),
    pop_misuse_always_fails emptyStackState 0 7 (Or.inr (Or.inl rfl))⟩

/-- **C10 (confirmed).**  `pop()` mutates before validating: with a
mismatched top-of-stack element `j ≠ i`, it has already recorded
`finish = t` on span `i` and removed `j` from the stack when it fails;
with an existing-but-empty stack it has already recorded `finish = t`
(and removes nothing).  The error is not atomic. -/
theorem pop_mutates_before_validating (s : SpanState) (i t : Nat)
    (stk : List Nat) (j : Nat)
    (hs : s.stack = some (stk ++ [j])) (hne : j ≠ i) :
    ((Span.pop i t s).1.spans i).finish = t
      ∧ (Span.pop i t s).1.stack = some stk
      ∧ (Span.pop i t s).2.isSome = true
      ∧ ∀ s2 : SpanState, s2.stack = some [] →
          ((Span.pop i t s2).1.spans i).finish = t
            ∧ (Span.pop i t s2).1.stack = some []
            ∧ (Span.pop i t s2).2.isSome = true := by
  have hpop : Span.pop i t s =
      ({ spans := setSpan s.spans i { s.spans i with finish := t },
         stack := some stk },
       some (.runtimeError
        ("Expect "
          ++ ((setSpan s.spans i { s.spans i with finish := t }) i).oid
          ++ " to be on a top of stack, got "
          ++ ((setSpan s.spans i { s.spans i with finish := t }) j).oid))) := by
    simp only [Span.pop, hs]
    rw [List.getLast?_concat]
    simp [hne, List.dropLast_concat]
  refine ⟨?_, ?_, ?_, ?_⟩
  · rw [hpop]; simp [setSpan]
  · rw [hpop]
  · rw [hpop]; rfl
  · intro s2 hs2
    refine ⟨?_, ?_, ?_⟩ <;> simp [Span.pop, hs2, setSpan]

/-- Witness for C10: a concrete mismatched pop. -/
theorem pop_mutates_before_validating_witness :
    (let s : SpanState := ⟨fun _ => Span.empty, some [5, 9]⟩
     ((Span.pop 0 42 s).1.spans 0).finish = 42
      ∧ (Span.pop 0 42 s).1.stack = some [5]
      ∧ (Span.pop 0 42 s).2.isSome = true) := by
  have h := pop_mutates_before_validating
    ⟨fun _ => Span.empty, some [5, 9]⟩ 0 42 [5] 9 rfl (by decide)
  exact ⟨h.1, h.2.1, h.2.2.1⟩

/-! ## Sequences of push/pop calls on one logical context (claim C5)

An operation is a `push()` or a `pop()` on a given span object at a
given monotonic-clock reading. -/

inductive Op where
  | push (i : Nat) (t : Nat)
  | pop (i : Nat) (t : Nat)
deriving DecidableEq, Repr

/-- Execute a sequence of span operations.  A failing `pop` keeps its
mutated state (the exception side channel is ignored here; `wf`
sequences never fail). -/
def exec : List Op → SpanState → SpanState
  | [], s => s
  | .push i t :: ops, s => exec ops (Span.push i t s)
  | .pop i t :: ops, s => exec ops (Span.pop i t s).1

/-- Correct LIFO discipline for a sequence of operations, relative to
the ids already used, the current abstract stack and the last clock
reading: every pushed span object is fresh, every `pop` is on the
current top of stack, and clock readings never decrease. -/
def wf : List Nat → List Nat → Nat → List Op → Bool
  | _, _, _, [] => true
  | used, stk, tmin, .push i t :: ops =>
      decide (i ∉ used) && decide (tmin ≤ t) && wf (i :: used) (stk ++ [i]) t ops
  | used, stk, tmin, .pop i t :: ops =>
      decide (stk.getLast? = some i) && decide (tmin ≤ t)
        && wf used stk.dropLast t ops

/-- The span ids pushed by a sequence, newest first, on top of the ids
already used. -/
def usedAfter : List Op → List Nat → List Nat
  | [], used => used
  | .push i _ :: ops, used => usedAfter ops (i :: used)
  | .pop _ _ :: ops, used => usedAfter ops used

/-- The abstract stack after a sequence. -/
def stkAfter : List Op → List Nat → List Nat
  | [], stk => stk
  | .push i _ :: ops, stk => stkAfter ops (stk ++ [i])
  | .pop _ _ :: ops, stk => stkAfter ops stk.dropLast

/-- The span ids pushed while some other span was already open
(i.e. pushed onto a non-empty stack): exactly the spans that acquire a
parent. -/
def nestedAfter : List Op → List Nat → List Nat → List Nat
  | [], _, nested => nested
  | .push i _ :: ops, stk, nested =>
      nestedAfter ops (stk ++ [i]) (if stk.isEmpty then nested else i :: nested)
  | .pop _ _ :: ops, stk, nested => nestedAfter ops stk.dropLast nested

/-- The last clock reading of a sequence. -/
def tminAfter : List Op → Nat → Nat
  | [], tmin => tmin
  | .push _ t :: ops, _ => tminAfter ops t
  | .pop _ t :: ops, _ => tminAfter ops t

/-- The start times of span `j`'s children, in child-list order. -/
def childStarts (spans : Nat → Span) (j : Nat) : List Nat :=
  (spans j).children.map fun c => (spans c).start

/-- How many times span `x` occurs in the children lists of the spans
`ids`, multiplicities included. -/
def totalChildCount (spans : Nat → Span) (ids : List Nat) (x : Nat) : Nat :=
  (ids.map fun j => ((spans j).children.count x)).sum

/-- Invariant tying a machine state to the abstract data of a
well-formed operation sequence. -/
structure SpanInv (s : SpanState) (used stk nested : List Nat) (tmin : Nat) :
    Prop where
  hstack : s.stack.getD [] = stk
  hstk_used : ∀ j ∈ stk, j ∈ used
  hfresh : ∀ j, j ∉ used → s.spans j = Span.empty
  hsorted : ∀ j, List.Pairwise (· ≤ ·) (childStarts s.spans j)
  hchild : ∀ j, ∀ c ∈ (s.spans j).children, (s.spans c).start ≤ tmin ∧ c ∈ used
  hstart : ∀ j, (s.spans j).start ≤ tmin
  hfinish : ∀ j, (s.spans j).finish = 0
      ∨ ((s.spans j).start ≤ (s.spans j).finish ∧ (s.spans j).finish ≤ tmin)
  hcount : ∀ x, totalChildCount s.spans used x = if x ∈ nested then 1 else 0
  hnodup : used.Nodup
  hnested : ∀ x ∈ nested, x ∈ used

lemma map_congr_on {α β : Type} (f g : α → β) :
    ∀ l : List α, (∀ a ∈ l, f a = g a) → l.map f = l.map g := by
  intro l
  induction l with
  | nil => intro _; rfl
  | cons a l ih =>
    intro h
    simp only [List.map_cons]
    rw [h a (List.mem_cons_self a l), ih fun b hb => h b (List.mem_cons_of_mem a hb)]

lemma map_sum_update (g f : Nat → Nat) (p : Nat) :
    ∀ ids : List Nat, ids.Nodup → p ∈ ids → (∀ j ∈ ids, j ≠ p → g j = f j) →
    (ids.map g).sum + f p = (ids.map f).sum + g p := by
  intro ids
  induction ids with
  | nil => intro _ hp; cases hp
  | cons a l ih =>
    intro hnd hp hsame
    rcases List.mem_cons.mp hp with rfl | hpl
    · have hnl : p ∉ l := (List.nodup_cons.mp hnd).1
      have hmap : l.map g = l.map f := by
        refine map_congr_on g f l fun j hj => ?_
        exact hsame j (List.mem_cons_of_mem p hj) fun h => hnl (h ▸ hj)
      simp only [List.map_cons, List.sum_cons, hmap]
      omega
    · have hap : a ≠ p := by
        rintro rfl
        exact (List.nodup_cons.mp hnd).1 hpl
      have ha : g a = f a := hsame a (List.mem_cons_self a l) hap
      have := ih (List.nodup_cons.mp hnd).2 hpl
        fun j hj hjp => hsame j (List.mem_cons_of_mem a hj) hjp
      simp only [List.map_cons, List.sum_cons, ha]
      omega

lemma setSpan_same (f : Nat → Span) (i : Nat) (sp : Span) :
    setSpan f i sp i = sp := by
  simp [setSpan]

lemma setSpan_other (f : Nat → Span) (i : Nat) (sp : Span) {j : Nat}
    (h : j ≠ i) : setSpan f i sp j = f j := by
  simp [setSpan, h]

lemma SpanInv.push_step {s : SpanState} {used stk nested : List Nat}
    {tmin : Nat} (inv : SpanInv s used stk nested tmin) {i t : Nat}
    (hi : i ∉ used) (ht : tmin ≤ t) :
    SpanInv (Span.push i t s) (i :: used) (stk ++ [i])
      (if stk.isEmpty then nested else i :: nested) t := by
  have hei : s.spans i = Span.empty := inv.hfresh i hi
  rcases List.eq_nil_or_concat stk with rfl | ⟨stk0, p, hcat⟩
  · -- the stack is empty: no parent acquires a child
    have hpush : Span.push i t s =
        { spans := setSpan s.spans i { s.spans i with start := t },
          stack := some [i] } := by
      simp only [Span.push, inv.hstack, appendChildToTop, List.getLast?_nil,
        List.nil_append]
    have hNi : (Span.push i t s).spans i = { s.spans i with start := t } := by
      rw [hpush]; exact setSpan_same _ _ _
    have hNo : ∀ j, j ≠ i → (Span.push i t s).spans j = s.spans j := by
      intro j hj; rw [hpush]; exact setSpan_other _ _ _ hj
    have hchEq : ∀ j, ((Span.push i t s).spans j).children
        = (s.spans j).children := by
      intro j
      by_cases hj : j = i
      · subst hj; rw [hNi]
      · rw [hNo j hj]
    have hstEq : ∀ c, c ≠ i →
        ((Span.push i t s).spans c).start = (s.spans c).start := by
      intro c hc; rw [hNo c hc]
    simp only [List.isEmpty_nil, if_true, List.nil_append]
    refine ⟨?_, ?_, ?_, ?_, ?_, ?_, ?_, ?_, ?_, ?_⟩
    · rw [hpush]
      rfl
    · intro j hj
      simp only [List.mem_singleton] at hj
      simp [hj]
    · intro j hj
      have hji : j ≠ i := fun h => hj (h ▸ List.mem_cons_self i used)
      have hju : j ∉ used := fun h => hj (List.mem_cons_of_mem i h)
      rw [hNo j hji]; exact inv.hfresh j hju
    · intro j
      have : childStarts (Span.push i t s).spans j
          = childStarts s.spans j := by
        unfold childStarts
        rw [hchEq j]
        refine map_congr_on _ _ _ fun c hc => ?_
        have hcu : c ∈ used := ((inv.hchild j) c hc).2
        exact hstEq c fun h => hi (h ▸ hcu)
      rw [this]; exact inv.hsorted j
    · intro j c hc
      rw [hchEq j] at hc
      have h1 := (inv.hchild j) c hc
      have hcu : c ∈ used := h1.2
      rw [hstEq c fun h => hi (h ▸ hcu)]
      exact ⟨le_trans h1.1 ht, List.mem_cons_of_mem i hcu⟩
    · intro j
      by_cases hj : j = i
      · subst hj; rw [hNi]
      · rw [hNo j hj]; exact le_trans (inv.hstart j) ht
    · intro j
      by_cases hj : j = i
      · subst hj; rw [hNi]
        left
        simp [hei, Span.empty]
      · rw [hNo j hj]
        rcases inv.hfinish j with h | h
        · exact Or.inl h
        · exact Or.inr ⟨h.1, le_trans h.2 ht⟩
    · intro x
      have hmap : used.map (fun j => (((Span.push i t s).spans j).children.count x))
          = used.map (fun j => ((s.spans j).children.count x)) := by
        refine map_congr_on _ _ _ fun j hj => ?_
        rw [hchEq j]
      unfold totalChildCount
      simp only [List.map_cons, List.sum_cons, hmap, hchEq i, hei]
      have : (Span.empty).children.count x = 0 := rfl
      rw [this, Nat.zero_add]
      exact inv.hcount x
    · exact List.nodup_cons.mpr ⟨hi, inv.hnodup⟩
    · intro x hx
      exact List.mem_cons_of_mem i (inv.hnested x hx)
  · -- the stack is non-empty: its top `p` gains `i` as last child
    rw [List.concat_eq_append] at hcat
    subst hcat
    have hp_stk : p ∈ stk0 ++ [p] := List.mem_append_right _ (List.mem_singleton.mpr rfl)
    have hpu : p ∈ used := inv.hstk_used p hp_stk
    have hpi : p ≠ i := fun h => hi (h ▸ hpu)
    have hpush : Span.push i t s =
        { spans := setSpan
            (setSpan s.spans p
              { s.spans p with children := (s.spans p).children ++ [i] }) i
            { s.spans i with start := t },
          stack := some (stk0 ++ [p] ++ [i]) } := by
      simp only [Span.push, inv.hstack, appendChildToTop, List.getLast?_concat]
      rw [setSpan_other _ _ _ (Ne.symm hpi)]
    have hNi : (Span.push i t s).spans i = { s.spans i with start := t } := by
      rw [hpush]; exact setSpan_same _ _ _
    have hNp : (Span.push i t s).spans p
        = { s.spans p with children := (s.spans p).children ++ [i] } := by
      simp only [hpush]
      rw [setSpan_other _ _ _ hpi]
      exact setSpan_same _ _ _
    have hNo : ∀ j, j ≠ i → j ≠ p → (Span.push i t s).spans j = s.spans j := by
      intro j hj1 hj2
      simp only [hpush]
      rw [setSpan_other _ _ _ hj1]
      exact setSpan_other _ _ _ hj2
    have hstEq : ∀ c, c ≠ i →
        ((Span.push i t s).spans c).start = (s.spans c).start := by
      intro c hc
      by_cases hcp : c = p
      · subst hcp; rw [hNp]
      · rw [hNo c hc hcp]
    have hfinEq : ∀ c, c ≠ i →
        ((Span.push i t s).spans c).finish = (s.spans c).finish := by
      intro c hc
      by_cases hcp : c = p
      · subst hcp; rw [hNp]
      · rw [hNo c hc hcp]
    have hchEq : ∀ j, j ≠ i → j ≠ p →
        ((Span.push i t s).spans j).children = (s.spans j).children := by
      intro j hj1 hj2; rw [hNo j hj1 hj2]
    have hne : (stk0 ++ [p]).isEmpty = false := by
      simp [List.isEmpty_iff]
    rw [hne]
    simp only [Bool.false_eq_true, if_false]
    refine ⟨?_, ?_, ?_, ?_, ?_, ?_, ?_, ?_, ?_, ?_⟩
    · rw [hpush]
      rfl
    · intro j hj
      rcases List.mem_append.mp hj with hj | hj
      · exact List.mem_cons_of_mem i (inv.hstk_used j hj)
      · simp only [List.mem_singleton] at hj
        simp [hj]
    · intro j hj
      have hji : j ≠ i := fun h => hj (h ▸ List.mem_cons_self i used)
      have hju : j ∉ used := fun h => hj (List.mem_cons_of_mem i h)
      have hjp : j ≠ p := fun h => hju (h ▸ hpu)
      rw [hNo j hji hjp]; exact inv.hfresh j hju
    · intro j
      by_cases hj : j = i
      · subst hj
        unfold childStarts
        rw [hNi]
        simp only
        rw [hei]
        exact List.Pairwise.nil.map _ fun _ _ h => h
      · by_cases hjp : j = p
        · subst hjp
          unfold childStarts
          rw [hNp]
          simp only [List.map_append]
          rw [List.pairwise_append]
          have hmap : (s.spans j).children.map
                (fun c => (((Span.push i t s).spans c).start))
              = (s.spans j).children.map (fun c => ((s.spans c).start)) := by
            refine map_congr_on _ _ _ fun c hc => ?_
            have hcu : c ∈ used := ((inv.hchild j) c hc).2
            exact hstEq c fun h => hi (h ▸ hcu)
          rw [hmap]
          refine ⟨inv.hsorted j, List.pairwise_singleton _ _, ?_⟩
          intro a ha b hb
          simp only [List.map_singleton, List.mem_singleton] at hb
          rcases List.mem_map.mp ha with ⟨c, hc, rfl⟩
          have h1 := (inv.hchild j) c hc
          subst hb
          rw [hNi]
          exact le_trans h1.1 ht
        · unfold childStarts
          rw [hchEq j hj hjp]
          have hmap : (s.spans j).children.map
                (fun c => (((Span.push i t s).spans c).start))
              = (s.spans j).children.map (fun c => ((s.spans c).start)) := by
            refine map_congr_on _ _ _ fun c hc => ?_
            have hcu : c ∈ used := ((inv.hchild j) c hc).2
            exact hstEq c fun h => hi (h ▸ hcu)
          rw [hmap]
          exact inv.hsorted j
    · intro j c hc
      by_cases hj : j = i
      · subst hj
        rw [hNi] at hc
        simp only at hc
        rw [hei] at hc
        cases hc
      · by_cases hjp : j = p
        · subst hjp
          rw [hNp] at hc
          simp only at hc
          rcases List.mem_append.mp hc with hc | hc
          · have h1 := (inv.hchild j) c hc
            have hcu : c ∈ used := h1.2
            rw [hstEq c fun h => hi (h ▸ hcu)]
            exact ⟨le_trans h1.1 ht, List.mem_cons_of_mem i hcu⟩
          · simp only [List.mem_singleton] at hc
            subst hc
            rw [hNi]
            exact ⟨le_refl t, List.mem_cons_self c used⟩
        · rw [hchEq j hj hjp] at hc
          have h1 := (inv.hchild j) c hc
          have hcu : c ∈ used := h1.2
          rw [hstEq c fun h => hi (h ▸ hcu)]
          exact ⟨le_trans h1.1 ht, List.mem_cons_of_mem i hcu⟩
    · intro j
      by_cases hj : j = i
      · subst hj; rw [hNi]
      · rw [hstEq j hj]; exact le_trans (inv.hstart j) ht
    · intro j
      by_cases hj : j = i
      · subst hj; rw [hNi]
        left
        simp [hei, Span.empty]
      · rw [hfinEq j hj, hstEq j hj]
        rcases inv.hfinish j with h | h
        · exact Or.inl h
        · exact Or.inr ⟨h.1, le_trans h.2 ht⟩
    · intro x
      have hgf : ∀ j ∈ used, j ≠ p →
          (((Span.push i t s).spans j).children.count x)
            = ((s.spans j).children.count x) := by
        intro j hj hjp
        rw [hchEq j (fun h => hi (h ▸ hj)) hjp]
      have hgp : (((Span.push i t s).spans p).children.count x)
          = ((s.spans p).children.count x) + List.count x [i] := by
        rw [hNp]
        simp [List.count_append]
      have hupd : (used.map
            (fun j => (((Span.push i t s).spans j).children.count x))).sum
            + ((s.spans p).children.count x)
          = (used.map (fun j => ((s.spans j).children.count x))).sum
            + (((Span.push i t s).spans p).children.count x) :=
        map_sum_update
          (fun j => (((Span.push i t s).spans j).children.count x))
          (fun j => ((s.spans j).children.count x)) p used inv.hnodup hpu hgf
      have hcnt := inv.hcount x
      unfold totalChildCount at hcnt ⊢
      simp only [List.map_cons, List.sum_cons]
      have hchi : ((Span.push i t s).spans i).children = [] := by
        rw [hNi]
        simp only
        rw [hei]
        rfl
      rw [hchi]
      simp only [List.count_nil, Nat.zero_add]
      by_cases hx : x = i
      · have hx0 : x ∉ nested := fun h => hi (hx ▸ inv.hnested x h)
        rw [if_neg hx0] at hcnt
        have hone : List.count x [i] = 1 := by rw [hx]; simp
        rw [hone] at hgp
        rw [if_pos (show x ∈ i :: nested by rw [hx]; exact List.mem_cons_self i nested)]
        omega
      · have hzero : List.count x [i] = 0 :=
          List.count_eq_zero.mpr (by simp [hx])
        rw [hzero] at hgp
        by_cases hxn : x ∈ nested
        · rw [if_pos hxn] at hcnt
          rw [if_pos (List.mem_cons_of_mem i hxn)]
          omega
        · rw [if_neg hxn] at hcnt
          rw [if_neg (show x ∉ i :: nested by simp [List.mem_cons, hx, hxn])]
          omega
    · exact List.nodup_cons.mpr ⟨hi, inv.hnodup⟩
    · intro x hx
      rcases List.mem_cons.mp hx with rfl | hx
      · exact List.mem_cons_self x used
      · exact List.mem_cons_of_mem i (inv.hnested x hx)

lemma SpanInv.pop_step {s : SpanState} {used stk nested : List Nat}
    {tmin : Nat} (inv : SpanInv s used stk nested tmin) {i t : Nat}
    (hlast : stk.getLast? = some i) (ht : tmin ≤ t) :
    SpanInv (Span.pop i t s).1 used stk.dropLast nested t := by
  have hsplit : stk.dropLast ++ [i] = stk :=
    List.dropLast_append_getLast? i (Option.mem_def.mpr hlast)
  have hne : stk ≠ [] := by
    rintro rfl
    simp at hlast
  have hstk : s.stack = some stk := by
    have h0 := inv.hstack
    rcases h : s.stack with _ | stk2
    · rw [h] at h0
      exact absurd h0.symm hne
    · rw [h] at h0
      simp only [Option.getD_some] at h0
      rw [h0]
  have hiu : i ∈ used := by
    refine inv.hstk_used i ?_
    rw [← hsplit]
    exact List.mem_append_right _ (List.mem_singleton.mpr rfl)
  have hpop : (Span.pop i t s).1 =
      { spans := setSpan s.spans i { s.spans i with finish := t },
        stack := some stk.dropLast } := by
    simp [Span.pop, hstk, hlast]
  have hNi : (Span.pop i t s).1.spans i = { s.spans i with finish := t } := by
    rw [hpop]; exact setSpan_same _ _ _
  have hNo : ∀ j, j ≠ i → (Span.pop i t s).1.spans j = s.spans j := by
    intro j hj; rw [hpop]; exact setSpan_other _ _ _ hj
  have hchEq : ∀ j, ((Span.pop i t s).1.spans j).children
      = (s.spans j).children := by
    intro j
    by_cases hj : j = i
    · subst hj; rw [hNi]
    · rw [hNo j hj]
  have hstEq : ∀ c, ((Span.pop i t s).1.spans c).start = (s.spans c).start := by
    intro c
    by_cases hc : c = i
    · subst hc; rw [hNi]
    · rw [hNo c hc]
  refine ⟨?_, ?_, ?_, ?_, ?_, ?_, ?_, ?_, inv.hnodup, inv.hnested⟩
  · rw [hpop]
    rfl
  · intro j hj
    refine inv.hstk_used j ?_
    rw [← hsplit]
    exact List.mem_append_left _ hj
  · intro j hj
    have hji : j ≠ i := fun h => hj (h ▸ hiu)
    rw [hNo j hji]
    exact inv.hfresh j hj
  · intro j
    have : childStarts (Span.pop i t s).1.spans j = childStarts s.spans j := by
      unfold childStarts
      rw [hchEq j]
      exact map_congr_on _ _ _ fun c _ => hstEq c
    rw [this]
    exact inv.hsorted j
  · intro j c hc
    rw [hchEq j] at hc
    have h1 := (inv.hchild j) c hc
    rw [hstEq c]
    exact ⟨le_trans h1.1 ht, h1.2⟩
  · intro j
    rw [hstEq j]
    exact le_trans (inv.hstart j) ht
  · intro j
    by_cases hj : j = i
    · subst hj
      rw [hNi]
      right
      exact ⟨le_trans (inv.hstart j) ht, le_refl t⟩
    · rw [hNo j hj]
      rcases inv.hfinish j with h | h
      · exact Or.inl h
      · exact Or.inr ⟨h.1, le_trans h.2 ht⟩
  · intro x
    have hmap : used.map
          (fun j => (((Span.pop i t s).1.spans j).children.count x))
        = used.map (fun j => ((s.spans j).children.count x)) := by
      refine map_congr_on _ _ _ fun j _ => ?_
      rw [hchEq j]
    unfold totalChildCount
    rw [hmap]
    exact inv.hcount x

lemma spanInv_init : SpanInv initState [] [] [] 0 := by
  refine ⟨rfl, ?_, ?_, ?_, ?_, ?_, ?_, ?_, List.nodup_nil, ?_⟩
  · intro j hj
    cases hj
  · intro j _
    rfl
  · intro j
    exact List.Pairwise.nil
  · intro j c hc
    exact absurd hc (List.not_mem_nil c)
  · intro j
    exact Nat.le_refl 0
  · intro j
    exact Or.inl rfl
  · intro x
    rfl
  · intro x hx
    cases hx

lemma exec_wf_inv : ∀ (ops : List Op) (s : SpanState)
    (used stk nested : List Nat) (tmin : Nat),
    wf used stk tmin ops = true → SpanInv s used stk nested tmin →
    SpanInv (exec ops s) (usedAfter ops used) (stkAfter ops stk)
      (nestedAfter ops stk nested) (tminAfter ops tmin) := by
  intro ops
  induction ops with
  | nil =>
    intro s used stk nested tmin _ inv
    exact inv
  | cons op ops ih =>
    intro s used stk nested tmin hwf inv
    cases op with
    | push i t =>
      simp only [wf, Bool.and_eq_true, decide_eq_true_eq] at hwf
      obtain ⟨⟨hi, ht⟩, hwf2⟩ := hwf
      simp only [exec, usedAfter, stkAfter, nestedAfter, tminAfter]
      exact ih _ _ _ _ _ hwf2 (inv.push_step hi ht)
    | pop i t =>
      simp only [wf, Bool.and_eq_true, decide_eq_true_eq] at hwf
      obtain ⟨⟨hl, ht⟩, hwf2⟩ := hwf
      simp only [exec, usedAfter, stkAfter, nestedAfter, tminAfter]
      exact ih _ _ _ _ _ hwf2 (inv.pop_step hl ht)

/-- **C5 (confirmed).**  For every sequence of `push()`/`pop()` calls
executed in correct LIFO order on one logical context (fresh span
objects, pops matching the current top of stack, nondecreasing
monotonic-clock readings), the resulting span tree satisfies:
every span's `elapsed_ns` is nonnegative (evaluated at any `now` not
earlier than the last clock reading); every child list is ordered by
the children's start times; every span pushed while another span was
open appears in the children lists exactly once overall, every other
span id zero times; and spans never pushed stay untouched. -/
theorem lifo_span_tree_invariants (ops : List Op) (now : Nat)
    (hwf : wf [] [] 0 ops = true) (hnow : tminAfter ops 0 ≤ now) :
    (∀ j, 0 ≤ Span.elapsed_ns ((exec ops initState).spans j) now)
      ∧ (∀ j, List.Pairwise (· ≤ ·) (childStarts (exec ops initState).spans j))
      ∧ (∀ x, totalChildCount (exec ops initState).spans (usedAfter ops []) x
          = if x ∈ nestedAfter ops [] [] then 1 else 0)
      ∧ (∀ j, j ∉ usedAfter ops [] → (exec ops initState).spans j = Span.empty) := by
  have inv := exec_wf_inv ops initState [] [] [] 0 hwf spanInv_init
  refine ⟨?_, inv.hsorted, inv.hcount, inv.hfresh⟩
  intro j
  have h1 := inv.hstart j
  have h2 := inv.hfinish j
  unfold Span.elapsed_ns
  split
  · exact le_refl 0
  · split
    · have hle : ((exec ops initState).spans j).start ≤ now :=
        le_trans h1 hnow
      omega
    · rcases h2 with h2 | h2
      · omega
      · omega

/-- A concrete well-nested run: two nested spans under a root, then a
sibling. -/
def opsA : List Op :=
  [Op.push 0 1, Op.push 1 2, Op.pop 1 3, Op.push 2 4, Op.pop 2 5, Op.pop 0 6]

/-- Witness for C5 at the concrete run `opsA`. -/
theorem lifo_span_tree_invariants_witness :
    (wf [] [] 0 opsA = true ∧ tminAfter opsA 0 ≤ 7)
      ∧ 0 ≤ Span.elapsed_ns ((exec opsA initState).spans 1) 7
      ∧ List.Pairwise (· ≤ ·) (childStarts (exec opsA initState).spans 0)
      ∧ totalChildCount (exec opsA initState).spans (usedAfter opsA []) 1
          = if (1 : Nat) ∈ nestedAfter opsA [] [] then 1 else 0 :=
  ⟨⟨by decide, by decide⟩,
    (lifo_span_tree_invariants opsA 7 (by decide) (by decide)).1 1,
    (lifo_span_tree_invariants opsA 7 (by decide) (by decide)).2.1 0,
    (lifo_span_tree_invariants opsA 7 (by decide) (by decide)).2.2.1 1⟩

/-! ## Snapshots (`chemtrails/trails/snapshots.py`)

The diagnostic readings come from the external inspector collaborator
(psutil / tracemalloc / os); the spec treats their contents as opaque
payload.  `Env` is one observation instant of that collaborator, plus
the generator and clock values the constructors consume
(`_generate_id()`, `datetime.now`, `time.monotonic_ns()`, the caller
source line). -/

structure Env where
  tracing : Bool
  memSnap : Nat
  rss : Nat
  vms : Nat
  uss : Option Nat
  pss : Option Nat
  swap : Option Nat
  processData : Nat
  cpuData : Nat
  ioData : Nat
  connectionsData : Nat
  childrenData : Nat
  threadsOk : Bool
  threadsData : Nat
  filesData : Nat
  freshOid : String
  nowIso : String
  now : Nat
  sourceLine : String
deriving DecidableEq, Repr

/-- `Memory` dataclass: sizes from `memory_full_info()`, plus an
optional tracemalloc snapshot (opaque), present only if requested and
tracemalloc is tracing. -/
structure Memory where
  snapshot : Option Nat
  rss : Nat
  vms : Nat
  uss : Option Nat
  pss : Option Nat
  swap : Option Nat
deriving DecidableEq, Repr

/-- `Memory.create(proc, with_snapshot)`. -/
def Memory.create (env : Env) (with_snapshot : Bool) : Memory :=
  { snapshot := if with_snapshot && env.tracing then some env.memSnap else none,
    rss := env.rss, vms := env.vms, uss := env.uss, pss := env.pss,
    swap := env.swap }

/-- `Snapshot` dataclass (base fields from `Base`: oid and created_at
generated at construction).  The non-memory diagnostic blocks
(process, cpu, io, connections, children, threads, files) are copied
verbatim from the inspector and kept opaque; `threads` is `None` when
the inspector denies access. -/
structure SnapshotObj where
  execution_id : String
  oid : String
  created_at : String
  memory : Memory
  processData : Nat
  cpuData : Nat
  ioData : Nat
  connectionsData : Nat
  childrenData : Nat
  threads : Option Nat
  filesData : Nat
deriving DecidableEq, Repr

/-- `Snapshot.create(execution_id, proc, with_memory_snapshot)`. -/
def Snapshot.create (execution_id : String) (env : Env)
    (with_memory_snapshot : Bool) : SnapshotObj :=
  { execution_id, oid := env.freshOid, created_at := env.nowIso,
    memory := Memory.create env with_memory_snapshot,
    processData := env.processData, cpuData := env.cpuData,
    ioData := env.ioData, connectionsData := env.connectionsData,
    childrenData := env.childrenData,
    threads := if env.threadsOk then some env.threadsData else none,
    filesData := env.filesData }

/-! ## Trace lifecycle (`chemtrails/trails/traces.py`, class `Trace`) -/

/-- `Trace` dataclass.  `spanId` is the reference to the root `Span`
object this trace owns in the span heap.  `user` models the
`TraceDict`. -/
structure TraceObj where
  execution_id : String
  oid : String
  created_at : String
  trace_id : String
  with_memory_snapshot : Bool
  old_snapshot : Option SnapshotObj
  new_snapshot : Option SnapshotObj
  spanId : Nat
  user : List (String × String)
deriving DecidableEq, Repr

/-- `Trace(...)` construction with `__post_init__`: old/new snapshots
start unset, the user dict empty, a fresh root `Span` object is
allocated and given the trace's oid and trace_id. -/
def Trace.new (execution_id trace_id : String) (with_memory_snapshot : Bool)
    (env : Env) (spanId : Nat) (ss : SpanState) : TraceObj × SpanState :=
  let rootSpan : Span :=
    { Span.empty with oid := env.freshOid, trace_id := trace_id }
  ({ execution_id := execution_id, oid := env.freshOid,
     created_at := env.nowIso, trace_id := trace_id,
     with_memory_snapshot := with_memory_snapshot,
     old_snapshot := none, new_snapshot := none,
     spanId := spanId, user := [] },
   { ss with spans := setSpan ss.spans spanId rootSpan })

/-- `Trace.is_completed`: both snapshots populated
(`self.old_snapshot is not None and self.new_snapshot is not None`). -/
def Trace.is_completed (tr : TraceObj) : Bool :=
  tr.old_snapshot.isSome && tr.new_snapshot.isSome

/-- `Trace.__enter__`: unconditionally capture `old_snapshot` via
`Snapshot.create(..., with_memory_snapshot=self.with_memory_snapshot)`,
then `self.span.push()`. -/
def Trace.enter (tr : TraceObj) (env : Env) (ss : SpanState) :
    TraceObj × SpanState :=
  let snap := Snapshot.create tr.execution_id env tr.with_memory_snapshot
  ({ tr with old_snapshot := some snap }, Span.push tr.spanId env.now ss)

/-- `Trace.__exit__`: `self.span.pop()` first (its exception, if any,
propagates before the snapshot is taken), then unconditionally capture
`new_snapshot`. -/
def Trace.exit (tr : TraceObj) (env : Env) (ss : SpanState) :
    TraceObj × SpanState × Option PyError :=
  match Span.pop tr.spanId env.now ss with
  | (ss1, some e) => (tr, ss1, some e)
  | (ss1, none) =>
    let snap := Snapshot.create tr.execution_id env tr.with_memory_snapshot
    ({ tr with new_snapshot := some snap }, ss1, none)

/-! ## Archive codec (`chemtrails/trails/archive.py`) -/

/-- The objects the codec serializes. -/
inductive PyObj where
  | trace (tr : TraceObj)
  | snapshot (sp : SnapshotObj)
deriving DecidableEq, Repr

inductive PyClass where
  | trace
  | snapshot
deriving DecidableEq, Repr

def classOf : PyObj → PyClass
  | .trace _ => .trace
  | .snapshot _ => .snapshot

/-- Modelled from the spec: `utils.get_class_fqn` is called by
`archive.py` but its definition is not under `src/` (the `utils.py`
present there is an older generation without it); per spec section 4.4
the declared class name is the fully qualified type name, unambiguous
across types with the same short name. -/
def get_class_fqn : PyClass → String
  | .trace => "chemtrails.trails.traces.Trace"
  | .snapshot => "chemtrails.trails.snapshots.Snapshot"

def shortName : PyClass → String
  | .trace => "Trace"
  | .snapshot => "Snapshot"

def PyObj.oid : PyObj → String
  | .trace tr => tr.oid
  | .snapshot sp => sp.oid

def PyObj.execution_id : PyObj → String
  | .trace tr => tr.execution_id
  | .snapshot sp => sp.execution_id

def PyObj.created_at : PyObj → String
  | .trace tr => tr.created_at
  | .snapshot sp => sp.created_at

/-- `class_metadata`: `Base` contributes an empty mapping, `Trace`
overrides it with its trace_id. -/
def PyObj.class_metadata : PyObj → List (String × String)
  | .trace tr => [("trace_id", tr.trace_id)]
  | .snapshot _ => []

/-- `bytes.rstrip()`: drop trailing whitespace. -/
def rstripStr (s : String) : String :=
  String.mk (s.data.reverse.dropWhile Char.isWhitespace).reverse

def digitsVal (cs : List Char) : Nat :=
  cs.foldl (fun a c => a * 10 + (c.toNat - 48)) 0

def pyIntCore (cs : List Char) : Option Nat :=
  if !cs.isEmpty && cs.all Char.isDigit then some (digitsVal cs) else none

/-- Surrounding-whitespace strip, as `int()` performs on its input. -/
def stripChars (cs : List Char) : List Char :=
  ((cs.dropWhile Char.isWhitespace).reverse.dropWhile Char.isWhitespace).reverse

/-- Python `int(str)` on the decoded text: strips surrounding
whitespace, one optional sign, then decimal digits; anything else
raises `ValueError`.  (The underscore-separator extension of CPython
is not modelled.) -/
def pyInt (s : String) : Except PyError Int :=
  match stripChars s.data with
  | '-' :: cs =>
    match pyIntCore cs with
    | some n => .ok (-(n : Int))
    | none => .error (.valueError ("invalid literal for int: " ++ s))
  | '+' :: cs =>
    match pyIntCore cs with
    | some n => .ok ((n : Int))
    | none => .error (.valueError ("invalid literal for int: " ++ s))
  | cs =>
    match pyIntCore cs with
    | some n => .ok ((n : Int))
    | none => .error (.valueError ("invalid literal for int: " ++ s))

/-- `archive.VERSION`. -/
def VERSION : Int := 1

/-- The json metadata block of an archive (`types.ArchiveMetadata`). -/
structure ArchiveMetadataR where
  hub_id : String
  oid : String
  created_at : String
  class_ : String
deriving DecidableEq, Repr

/-- The zip container written by `save_object_to` / read by
`load_object_from`: the four members `version.txt`, `metadata.json`,
`class_metadata.json` and `data.pickle` (the pickled-and-zstd payload
is kept structured; pickling of these dataclasses is faithful).
`bad_member` is the result of `zipfile.testzip()`: `some name` models a
corrupted member. -/
structure Archive where
  bad_member : Option String
  version_txt : String
  metadata : ArchiveMetadataR
  class_metadata : List (String × String)
  data : PyObj
deriving DecidableEq, Repr

/-- `save_object_to`: writes `f"{VERSION}\n"`, the metadata block
(`hub_id` is the base record's id — named `execution_id` by the
generation of `base.py` under `src/` — plus oid, created_at and the
fully qualified class name), the class metadata block, and the
payload. -/
def save_object_to (obj : PyObj) : Archive :=
  { bad_member := none,
    version_txt := toString VERSION ++ "\n",
    metadata := { hub_id := obj.execution_id, oid := obj.oid,
                  created_at := obj.created_at,
                  class_ := get_class_fqn (classOf obj) },
    class_metadata := obj.class_metadata,
    data := obj }

/-- `load_object_from`: `testzip` first (`ArchiveBadFileError`), then
parse `version.txt` (`int()` may raise `ValueError`) and compare to
`VERSION` (`ArchiveUnsupportedVersionError`), then compare the
declared class name to the expected class fqn
(`ArchiveClassMismatchError`), and only then unpickle the payload and
check `isinstance` (`ArchiveWrongObjectError`; the raise site passes
the loaded class first, so it lands in the `expected` parameter). -/
def load_object_from (cls : PyClass) (ar : Archive) : Except PyError PyObj :=
  match ar.bad_member with
  | some f => .error (.archiveBadFileError f)
  | none =>
    match pyInt (rstripStr ar.version_txt) with
    | .error e => .error e
    | .ok v =>
      if v ≠ VERSION then .error (.archiveUnsupportedVersionError v)
      else if get_class_fqn cls ≠ ar.metadata.class_ then
        .error (.archiveClassMismatchError ar.metadata.class_)
      else if classOf ar.data ≠ cls then
        .error (.archiveWrongObjectError (shortName (classOf ar.data))
          (shortName cls))
      else .ok ar.data

/-- **C1 (confirmed).**  Round-trip law for the archive codec: loading
what `save_object_to` wrote, with the matching expected class, returns
an object equal to the original in all fields. -/
theorem archive_roundtrip (obj : PyObj) :
    load_object_from (classOf obj) (save_object_to obj) = .ok obj := by
  cases obj <;> rfl

/-- **C6 (confirmed).**  On an uncorrupted archive whose stored
version marker parses to an integer different from the supported
`VERSION`, loading fails with `ArchiveUnsupportedVersionError`
whatever the payload holds — the result does not depend on the
payload, so the payload is never materialized. -/
theorem load_version_mismatch_fails (cls : PyClass) (ar : Archive) (v : Int)
    (hbad : ar.bad_member = none)
    (hv : pyInt (rstripStr ar.version_txt) = .ok v)
    (hne : v ≠ VERSION) :
    ∀ d : PyObj, load_object_from cls { ar with data := d }
      = .error (.archiveUnsupportedVersionError v) := by
  intro d
  rcases ar with ⟨bm, vt, md, cm, d0⟩
  simp only at hbad hv
  subst hbad
  simp only [load_object_from]
  rw [hv]
  simp [hne]

/-- A concrete snapshot object for the archive witnesses. -/
def snapshotA : SnapshotObj :=
  { execution_id := "hub-1", oid := "0001",
    created_at := "2024-01-01T00:00:00+00:00",
    memory := { snapshot := none, rss := 100, vms := 200, uss := none,
                pss := none, swap := none },
    processData := 0, cpuData := 0, ioData := 0, connectionsData := 0,
    childrenData := 0, threads := none, filesData := 0 }

/-- An archive of `snapshotA` rewritten to version marker 2. -/
def archiveV2 : Archive :=
  { save_object_to (.snapshot snapshotA) with version_txt := "2\n" }

/-- Witness for C6: loading a version-2 archive fails. -/
theorem load_version_mismatch_fails_witness :
    (archiveV2.bad_member = none
      ∧ pyInt (rstripStr archiveV2.version_txt) = .ok 2
      ∧ (2 : Int) ≠ VERSION)
      ∧ load_object_from .snapshot archiveV2
        = .error (.archiveUnsupportedVersionError 2) := by
  refine ⟨⟨rfl, rfl, by decide⟩, ?_⟩
  exact load_version_mismatch_fails .snapshot archiveV2 2 rfl rfl (by decide)
    archiveV2.data

/-- **C7 (confirmed, with `get_class_fqn` modelled from the spec).**
On an uncorrupted archive that passes the version check but whose
stored declared class name differs from the expected class's fully
qualified name, loading fails with `ArchiveClassMismatchError`
whatever the payload holds (the payload is never decoded).  The name
compared is the fully qualified one, which is injective on the
serializable classes, so same-short-name types cannot be confused. -/
theorem load_class_mismatch_fails (cls : PyClass) (ar : Archive)
    (hbad : ar.bad_member = none)
    (hv : pyInt (rstripStr ar.version_txt) = .ok VERSION)
    (hcls : get_class_fqn cls ≠ ar.metadata.class_) :
    (∀ d : PyObj, load_object_from cls { ar with data := d }
        = .error (.archiveClassMismatchError ar.metadata.class_))
      ∧ ∀ c1 c2 : PyClass, get_class_fqn c1 = get_class_fqn c2 → c1 = c2 := by
  constructor
  · intro d
    rcases ar with ⟨bm, vt, md, cm, d0⟩
    simp only at hbad hv hcls
    subst hbad
    simp only [load_object_from]
    rw [hv]
    simp [hcls]
  · intro c1 c2 h
    cases c1 <;> cases c2 <;> revert h <;> decide

/-- An archive of `snapshotA` as written by the codec. -/
def archiveSnapA : Archive := save_object_to (.snapshot snapshotA)

/-- Witness for C7: loading a snapshot archive as a Trace fails. -/
theorem load_class_mismatch_fails_witness :
    (archiveSnapA.bad_member = none
      ∧ pyInt (rstripStr archiveSnapA.version_txt) = .ok VERSION
      ∧ get_class_fqn .trace ≠ archiveSnapA.metadata.class_)
      ∧ load_object_from .trace archiveSnapA
        = .error (.archiveClassMismatchError archiveSnapA.metadata.class_) := by
  refine ⟨⟨rfl, rfl, by decide⟩, ?_⟩
  exact (load_class_mismatch_fails .trace archiveSnapA rfl rfl (by decide)).1
    archiveSnapA.data

/-- When `span.pop()` succeeds, `Trace.__exit__` returns the trace
with `new_snapshot` freshly captured. -/
lemma Trace.exit_fst_of_pop_ok (tr : TraceObj) (env : Env) (ss : SpanState)
    (h : (Span.pop tr.spanId env.now ss).2 = none) :
    (Trace.exit tr env ss).1
      = { tr with
          new_snapshot := some (Snapshot.create tr.execution_id env tr.with_memory_snapshot) } := by
  unfold Trace.exit
  rcases hp : Span.pop tr.spanId env.now ss with ⟨ss2, e⟩
  rw [hp] at h
  simp only at h
  subst h
  rfl

/-- A concrete inspector observation for the lifecycle witnesses. -/
def envA : Env :=
  { tracing := false, memSnap := 0, rss := 100, vms := 200, uss := none,
    pss := none, swap := none, processData := 1, cpuData := 2, ioData := 3,
    connectionsData := 4, childrenData := 5, threadsOk := true,
    threadsData := 6, filesData := 7, freshOid := "oid-a",
    nowIso := "2024-01-01T00:00:01+00:00", now := 10,
    sourceLine := "app.py:1" }

/-- The observation at region exit. -/
def envB : Env := { envA with freshOid := "oid-b", now := 20 }

/-- A trace constructed with the memory-snapshot flag unset. -/
def traceA : TraceObj := (Trace.new "hub-1" "req" false envA 0 initState).1

def traceAState : SpanState := (Trace.new "hub-1" "req" false envA 0 initState).2

/-- **C8 (counterexample).**  The claim says that with the snapshot
flag unset, `old_snapshot` and `new_snapshot` stay `None` through the
region.  On the code, `__enter__` and `__exit__` capture the two
snapshots unconditionally — the flag (named `with_memory_snapshot`)
only governs the tracemalloc block inside each snapshot. -/
theorem snapshots_captured_despite_flag_counterexample :
    traceA.with_memory_snapshot = false
      ∧ (Trace.enter traceA envA traceAState).1.old_snapshot.isSome = true
      ∧ (Trace.exit (Trace.enter traceA envA traceAState).1 envB
          (Trace.enter traceA envA traceAState).2).1.new_snapshot.isSome
        = true :=
  ⟨rfl, rfl, rfl⟩

/-- **C8 (amended).**  `old_snapshot` is captured at region entry and
`new_snapshot` at (successful) region exit regardless of the flag;
`with_memory_snapshot` only controls whether the captured snapshot
embeds a tracemalloc memory snapshot (present iff the flag is set and
tracemalloc is tracing). -/
theorem snapshots_captured_despite_flag (tr : TraceObj) (envE envX : Env)
    (ss : SpanState)
    (hpop : (Span.pop tr.spanId envX.now (Trace.enter tr envE ss).2).2
      = none) :
    (Trace.enter tr envE ss).1.old_snapshot
        = some (Snapshot.create tr.execution_id envE tr.with_memory_snapshot)
      ∧ (Trace.exit (Trace.enter tr envE ss).1 envX
            (Trace.enter tr envE ss).2).1.new_snapshot
        = some (Snapshot.create tr.execution_id envX tr.with_memory_snapshot)
      ∧ ∀ (eid : String) (env : Env) (b : Bool),
          (Snapshot.create eid env b).memory.snapshot
            = if b && env.tracing then some env.memSnap else none := by
  refine ⟨rfl, ?_, fun _ _ _ => rfl⟩
  rw [Trace.exit_fst_of_pop_ok ((Trace.enter tr envE ss).1) envX
    ((Trace.enter tr envE ss).2) hpop]
  rfl

/-- Witness for C8 (amended) at the concrete trace `traceA`. -/
theorem snapshots_captured_despite_flag_witness :
    ((Span.pop traceA.spanId envB.now
        (Trace.enter traceA envA traceAState).2).2 = none)
      ∧ (Trace.enter traceA envA traceAState).1.old_snapshot
        = some (Snapshot.create traceA.execution_id envA
            traceA.with_memory_snapshot)
      ∧ (Trace.exit (Trace.enter traceA envA traceAState).1 envB
            (Trace.enter traceA envA traceAState).2).1.new_snapshot
        = some (Snapshot.create traceA.execution_id envB
            traceA.with_memory_snapshot) := by
  refine ⟨rfl, ?_, ?_⟩
  · exact (snapshots_captured_despite_flag traceA envA envB traceAState rfl).1
  · exact (snapshots_captured_despite_flag traceA envA envB traceAState rfl).2.1

/-- A span heap whose span 0 is finished at time 5. -/
def ssC : SpanState :=
  ⟨setSpan (fun _ => Span.empty) 0 { Span.empty with start := 3, finish := 5 },
   some []⟩

/-- **C9 (counterexample).**  The claim says `is_completed()` is true
iff the root span's finish is set, regardless of any other field.  On
the code, `is_completed` tests only the two snapshots: `traceA` with a
finished root span (finish = 5 in heap `ssC`) but unset snapshots is
not completed. -/
theorem is_completed_ignores_span_counterexample :
    (ssC.spans traceA.spanId).finish = 5
      ∧ traceA.old_snapshot = none ∧ traceA.new_snapshot = none
      ∧ Trace.is_completed traceA = false :=
  ⟨rfl, rfl, rfl, rfl⟩

/-- **C9 (amended).**  `is_completed()` is true iff both
`old_snapshot` and `new_snapshot` are populated: false at
construction, still false after entry alone, true after a successful
exit. -/
theorem is_completed_iff_snapshots (tr : TraceObj) (envE envX : Env)
    (ss : SpanState)
    (h0 : tr.old_snapshot = none) (h1 : tr.new_snapshot = none)
    (hpop : (Span.pop tr.spanId envX.now (Trace.enter tr envE ss).2).2
      = none) :
    Trace.is_completed tr = false
      ∧ Trace.is_completed (Trace.enter tr envE ss).1 = false
      ∧ Trace.is_completed
          (Trace.exit (Trace.enter tr envE ss).1 envX
            (Trace.enter tr envE ss).2).1 = true
      ∧ ∀ tr2 : TraceObj, Trace.is_completed tr2
          = (tr2.old_snapshot.isSome && tr2.new_snapshot.isSome) := by
  refine ⟨?_, ?_, ?_, fun _ => rfl⟩
  · simp [Trace.is_completed, h0]
  · simp [Trace.is_completed, Trace.enter, h1]
  · rw [Trace.exit_fst_of_pop_ok ((Trace.enter tr envE ss).1) envX
      ((Trace.enter tr envE ss).2) hpop]
    simp [Trace.is_completed, Trace.enter]

/-- Witness for C9 (amended) at the concrete trace `traceA`. -/
theorem is_completed_iff_snapshots_witness :
    (traceA.old_snapshot = none ∧ traceA.new_snapshot = none
      ∧ (Span.pop traceA.spanId envB.now
          (Trace.enter traceA envA traceAState).2).2 = none)
      ∧ Trace.is_completed traceA = false
      ∧ Trace.is_completed
          (Trace.exit (Trace.enter traceA envA traceAState).1 envB
            (Trace.enter traceA envA traceAState).2).1 = true := by
  refine ⟨⟨rfl, rfl, rfl⟩, ?_, ?_⟩
  · exact (is_completed_iff_snapshots traceA envA envB traceAState
      rfl rfl rfl).1
  · exact (is_completed_iff_snapshots traceA envA envB traceAState
      rfl rfl rfl).2.2.1

/-! ## Hub (`chemtrails/hub/hub.py`) -/

/-- Modelled from the spec: the `msg.name` attribute interpolated into
the drop log lines is not defined by the `Base` generation under
`src/` (only its callers in `hub.py` are present); per spec section 7
a drop is logged with the object's identity, so `name` is modelled as
the object's oid. -/
def PyObj.name (obj : PyObj) : String := obj.oid

/-- The `ThreadingHub` state visible to `send_object`: the hub id, the
two events, the bounded queue (`queue.Queue(max_size)`; a python queue
with `maxsize <= 0` is unbounded, and the constructor default is
`sys.maxsize`), and the log side channel. -/
structure HubState where
  oid : String
  event_disabled : Bool
  event_closed : Bool
  queue : List PyObj
  maxsize : Int
  log : List String
deriving DecidableEq, Repr

/-- `AbstractHub.is_working`. -/
def AbstractHub.is_working (s : HubState) : Bool :=
  !(s.event_closed || s.event_disabled)

/-- `queue.Queue.put_nowait`: raises `queue.Full` when the queue is
bounded (`maxsize > 0`) and at capacity, otherwise appends without
blocking. -/
def put_nowait (q : List PyObj) (maxsize : Int) (msg : PyObj) :
    Except PyError (List PyObj) :=
  if 0 < maxsize ∧ maxsize ≤ (q.length : Int) then .error .queueFullError
  else .ok (q ++ [msg])

/-- The warning line `"Hub %s has dropped a message %s"`. -/
def dropLine (s : HubState) (msg : PyObj) : String :=
  "Hub " ++ s.oid ++ " has dropped a message " ++ msg.name

/-- `ThreadingHub.send_object`: if the closed event is set, log a drop
and return; otherwise `put_nowait`, catching `queue.Full` and logging
a drop.  The second component is the exception surfaced to the caller
— always `none`. -/
def send_object (msg : PyObj) (s : HubState) : HubState × Option PyError :=
  if s.event_closed then
    ({ s with log := s.log ++ [dropLine s msg] }, none)
  else
    match put_nowait s.queue s.maxsize msg with
    | .ok q2 => ({ s with queue := q2 }, none)
    | .error _ => ({ s with log := s.log ++ [dropLine s msg] }, none)

/-- **C2 (confirmed).**  For every object and hub state, `send_object`
raises nothing into the caller; when the hub is closed or the bounded
queue is at capacity the object is dropped (queue unchanged) with a
logged warning, and otherwise it is enqueued with no warning; the
enqueue attempt is the non-blocking `put_nowait`, failing fast on
saturation.  The disabled event plays no role here. -/
theorem send_object_never_raises (msg : PyObj) (s : HubState) :
    (send_object msg s).2 = none
      ∧ (s.event_closed = true →
          (send_object msg s).1.queue = s.queue
            ∧ (send_object msg s).1.log = s.log ++ [dropLine s msg])
      ∧ (s.event_closed = false → 0 < s.maxsize →
          s.maxsize ≤ (s.queue.length : Int) →
          (send_object msg s).1.queue = s.queue
            ∧ (send_object msg s).1.log = s.log ++ [dropLine s msg])
      ∧ (s.event_closed = false →
          ¬(0 < s.maxsize ∧ s.maxsize ≤ (s.queue.length : Int)) →
          (send_object msg s).1.queue = s.queue ++ [msg]
            ∧ (send_object msg s).1.log = s.log) := by
  refine ⟨?_, ?_, ?_, ?_⟩
  · unfold send_object
    split
    · rfl
    · unfold put_nowait
      split
      · rfl
      · rfl
  · intro hc
    simp [send_object, hc]
  · intro hc h1 h2
    simp [send_object, hc, put_nowait, h1, h2]
  · intro hc hfull
    simp [send_object, hc, put_nowait, hfull]

/-- An open hub with capacity 1. -/
def hubOpen : HubState :=
  { oid := "h", event_disabled := false, event_closed := false,
    queue := [], maxsize := 1, log := [] }

/-- The same hub, closed. -/
def hubClosed : HubState := { hubOpen with event_closed := true }

/-- The same hub with its single queue slot taken. -/
def hubFull : HubState := { hubOpen with queue := [.snapshot snapshotA] }

/-- Witness for C2 at the three admission situations. -/
theorem send_object_never_raises_witness :
    (send_object (.snapshot snapshotA) hubClosed).2 = none
      ∧ (send_object (.snapshot snapshotA) hubClosed).1.queue
        = hubClosed.queue
      ∧ (send_object (.snapshot snapshotA) hubFull).1.queue = hubFull.queue
      ∧ (send_object (.snapshot snapshotA) hubOpen).1.queue
        = hubOpen.queue ++ [.snapshot snapshotA] :=
  ⟨(send_object_never_raises (.snapshot snapshotA) hubClosed).1,
    ((send_object_never_raises (.snapshot snapshotA) hubClosed).2.1 rfl).1,
    ((send_object_never_raises (.snapshot snapshotA) hubFull).2.2.1 rfl
      (by decide) (by decide)).1,
    ((send_object_never_raises (.snapshot snapshotA) hubOpen).2.2.2 rfl
      (by decide)).1⟩

/-! ## The `trace()` scoped-region construct (claim C3)

`AbstractHub.trace` is a `@contextlib.contextmanager` generator.  On
`with hub.trace(...)`, `__enter__` advances the generator to its first
yield; a generator that returns before yielding makes `contextlib`
raise `RuntimeError` (CPython wording uses a contraction of
"did not yield"). -/

/-- The first step of a python generator: it either yields a value or
returns (the `StopIteration` payload is discarded by contextlib). -/
inductive GenStart (α : Type) where
  | yields (a : α)
  | returns

/-- `contextlib._GeneratorContextManager.__enter__`. -/
def contextmanager_enter {α : Type} (g : GenStart α) : Except PyError α :=
  match g with
  | .yields a => .ok a
  | .returns => .error (.runtimeError "generator did not yield")

/-- `AbstractHub.trace` up to its first yield: when the hub is not
working the generator body executes `return iter(({},))` — a return,
not a yield, so the would-be empty mapping never reaches the caller;
otherwise the trace id is derived (caller source line when omitted),
a Trace is constructed (`hub.py` passes the keyword `with_snapshot`,
which this tree's `traces.py` generation names
`with_memory_snapshot`) and entered, and its user dict is yielded. -/
def hub_trace_gen_start (s : HubState) (trace_id : Option String)
    (with_snapshot : Bool) (env : Env) (spanId : Nat) (ss : SpanState) :
    GenStart (TraceObj × SpanState) :=
  if !AbstractHub.is_working s then .returns
  else
    let tid := trace_id.getD env.sourceLine
    let pair := Trace.new s.oid tid with_snapshot env spanId ss
    let pair2 := Trace.enter pair.1 env pair.2
    .yields pair2

/-- A disabled hub. -/
def hubDisabled : HubState :=
  { oid := "h2", event_disabled := true, event_closed := false,
    queue := [], maxsize := 9, log := [] }

/-- **C3 (code bug).**  The spec says entering `trace()` on a
non-working hub is a no-op yielding an empty user-data map.  The code
returns `iter(({},))` from inside the contextmanager generator before
any yield, so `contextlib` raises `RuntimeError` out of `__enter__`:
entering the region on a disabled hub raises instead of yielding. -/
theorem trace_disabled_enter_raises :
    AbstractHub.is_working hubDisabled = false
      ∧ contextmanager_enter
          (hub_trace_gen_start hubDisabled none false envA 0 initState)
        = .error (.runtimeError "generator did not yield") :=
  ⟨rfl, rfl⟩
